import Mathlib

/-!
Verification of the Transparent Content Resolver of datalad-fuse
(`src/datalad_fuse/fsspec.py`), shallowly embedded in Lean.

Paths are modelled as lists of path segments (absolute paths, as the
adapter is invoked with absolute paths by the FUSE layer).  The operating
system, the git-annex registry and the fsspec caching filesystem are
modelled as oracles bundled in a `World`; the adapter's methods are
translated line by line into Lean functions over those oracles.
-/

deriving instance DecidableEq for Except

namespace DataladFuse

/-- A filesystem path, as a list of segments of an absolute path. -/
abbrev FsPath := List String

/-- `FileState = Enum("FileState", "NOT_ANNEXED NO_CONTENT HAS_CONTENT")`
from `fsspec.py`. -/
inductive FileState where
  | NOT_ANNEXED
  | NO_CONTENT
  | HAS_CONTENT
deriving DecidableEq, Repr

/-- The error outcomes of the adapter's methods:
`fileNotFound` is the `FileNotFoundError` raised by `p.stat()` on a missing
path; `notUnderDataLad` and `notUnderRootDataset` are the two distinct
`ValueError`s raised by `get_dataset_path`; `relativeToFailure` is the
`ValueError` of `Path.relative_to` in `annexize`; `unsupportedMode` is the
`NotImplementedError` of `open`; `noUsableSource` is the `IOError` raised
when every candidate URL fails. -/
inductive FsError where
  | fileNotFound
  | notUnderDataLad (path : FsPath)
  | notUnderRootDataset (path : FsPath)
  | relativeToFailure (path : FsPath)
  | unsupportedMode
  | noUsableSource (path : FsPath)
deriving DecidableEq, Repr

/-- A readable handle returned by `open`: either the local `open(filepath)`
or a handle obtained from the caching filesystem at a URL. -/
inductive Handle where
  | localFile (path : FsPath)
  | remote (url : String)
deriving DecidableEq, Repr

/-- Snapshot of the operating-system view of the filesystem used by
`get_file_state`: `isSymlink p` models `p.is_symlink()`, `exists_ p`
models `p.exists()` (and `p.stat()` raising `FileNotFoundError` exactly
when the non-symlink path is missing), `size p` models `p.stat().st_size`,
and `resolveLink p` models `Path(os.path.normpath(p.parent / os.readlink(p)))`,
i.e. the already-normalized resolved link target. -/
structure FS where
  isSymlink : FsPath → Bool
  exists_ : FsPath → Bool
  size : FsPath → Nat
  resolveLink : FsPath → FsPath

/-- One entry of `annex.get_remotes()` together with its configuration:
`annexUuid` models `annex.config.get("remote.<name>.annex-uuid")` and
`url` models `annex.config.get("remote.<name>.url")`. -/
structure Remote where
  name : String
  annexUuid : Option String
  url : Option String

/-- The git configuration consulted by `get_urls`: the list of remotes and
the URL-rewriting map `annex.config.rewrite_url`. -/
structure AnnexConfig where
  remotes : List Remote
  rewriteUrl : String → String

/-- The per-dataset `AnnexRepo` registry handle, as the oracle answering the
batched queries issued by `get_file_state` and `get_urls`:
`is_under_annex`, `get_file_key`, `file_has_content` and `whereis` take the
dataset-relative path; `examinekeyMixed`/`examinekeyLower` model the two
batched `examinekey` calls producing the hashdirmixed- and hashdirlower-style
object paths for a key. -/
structure AnnexOracle where
  is_under_annex : FsPath → Bool
  get_file_key : FsPath → String
  file_has_content : FsPath → Bool
  whereis : FsPath → List (String × List String)
  examinekeyMixed : String → String
  examinekeyLower : String → String
  config : AnnexConfig

/-- Everything outside the adapter's own code: the OS filesystem, DataLad's
`get_dataset_root`, the `AnnexRepo` handle constructed for each dataset
root, and the caching filesystem `self.fs`, where `fetch url = true` means
`self.fs.open(url, mode)` succeeds and `false` means it raises
`FileNotFoundError`. -/
structure World where
  fs : FS
  datasetRoot : FsPath → Option FsPath
  annexOf : FsPath → AnnexOracle
  fetch : String → Bool

/-- Python's `s.lower()` for the ASCII strings handled here, as a
character-by-character map. -/
def lowerStr (s : String) : String :=
  String.mk (s.toList.map Char.toLower)

/-- Python's `s.startswith(pre)`, as a list comparison on characters. -/
def strStartsWith (s pre : String) : Bool :=
  pre.toList.isPrefixOf s.toList

/-- Python's `s.endswith(suf)`, as a list comparison on characters. -/
def strEndsWith (s suf : String) : Bool :=
  suf.toList.isSuffixOf s.toList

/-- `is_http_url` from `fsspec.py`:
`s.lower().startswith(("http://", "https://"))`. -/
def is_http_url (s : String) : Bool :=
  strStartsWith (lowerStr s) "http://" || strStartsWith (lowerStr s) "https://"

/-- Python's `s.rstrip("/")`: remove all trailing slash characters. -/
def rstripSlash (s : String) : String :=
  String.mk ((s.toList.reverse.dropWhile (fun c => c = '/')).reverse)

/-- `FsspecAdapter.get_dataset_path`: resolve the dataset root of `path` via
`get_dataset_root`, raising `ValueError("Path not under DataLad")` when
there is none and `ValueError("Path not under root dataset")` when the
discovered root is not under the adapter's root. -/
def get_dataset_path (root : FsPath) (w : World) (path : FsPath) :
    Except FsError FsPath :=
  match w.datasetRoot path with
  | none => .error (.notUnderDataLad path)
  | some dspath =>
      if root.isPrefixOf dspath then .ok dspath
      else .error (.notUnderRootDataset path)

/-- `FsspecAdapter.annexize`: locate the dataset root, obtain (or create)
the `AnnexRepo` for it, and split off the dataset-relative path via
`Path(filepath).relative_to(dspath)`. -/
def annexize (root : FsPath) (w : World) (filepath : FsPath) :
    Except FsError (FsPath × FsPath) :=
  match get_dataset_path root w filepath with
  | .error e => .error e
  | .ok dspath =>
      if dspath.isPrefixOf filepath then
        .ok (dspath, filepath.drop dspath.length)
      else
        .error (.relativeToFailure filepath)

/-- `FsspecAdapter.get_file_state`: classify `dataset_path / relpath` as
`NOT_ANNEXED`, `NO_CONTENT` or `HAS_CONTENT`, with the annex key when
annexed.  The non-symlink branch probes `p.stat().st_size` (raising
`FileNotFoundError` when the path is missing) and, below the 1024-byte
threshold, queries the registry; the symlink branch resolves the link
target, requires it to lie under `.git/annex/objects`, and takes the
target's final segment as the key, present iff the target exists. -/
def get_file_state (fs : FS) (annex : AnnexOracle)
    (dataset_path : FsPath) (relpath : FsPath) :
    Except FsError (FileState × Option String) :=
  let p := dataset_path ++ relpath
  if ¬ fs.isSymlink p then
    if ¬ fs.exists_ p then .error .fileNotFound
    else if fs.size p < 1024 then
      if annex.is_under_annex relpath then
        let key := annex.get_file_key relpath
        if annex.file_has_content relpath then
          .ok (.HAS_CONTENT, some key)
        else
          .ok (.NO_CONTENT, some key)
      else .ok (.NOT_ANNEXED, none)
    else .ok (.NOT_ANNEXED, none)
  else
    let target := fs.resolveLink p
    if (dataset_path ++ [".git", "annex", "objects"]).isPrefixOf target then
      let key := target.getLastD ""
      if fs.exists_ target then .ok (.HAS_CONTENT, some key)
      else .ok (.NO_CONTENT, some key)
    else .ok (.NOT_ANNEXED, none)

/-- The `uuid2remote_url` dictionary built by `get_urls`: for each remote
with both an `annex-uuid` and a `url` configured, map the uuid to the
rewritten url.  Later entries overwrite earlier ones, as in a Python dict. -/
def uuid2remote_url (cfg : AnnexConfig) : List (String × String) :=
  cfg.remotes.filterMap fun r =>
    match r.annexUuid, r.url with
    | some ru, some u => some (ru, cfg.rewriteUrl u)
    | _, _ => none

/-- Lookup in an association list with Python-dict semantics: the most
recently inserted binding for the key wins. -/
def dictLookup (l : List (String × String)) (k : String) : Option String :=
  ((l.filter (fun p => p.1 = k)).getLast?).map (fun p => p.2)

/-- The per-remote path list of `get_urls`: for a base URL whose lowercased,
slash-stripped form ends in `/.git`, the two object paths directly
(`path_mixed` before `path_lower`); otherwise the two bare paths
(`path_lower` before `path_mixed`) followed by the same two nested under
`.git/`. -/
def candidate_paths (base_url path_mixed path_lower : String) : List String :=
  if strEndsWith (rstripSlash (lowerStr base_url)) "/.git" then
    [path_mixed, path_lower]
  else
    [path_lower, path_mixed, ".git/" ++ path_lower, ".git/" ++ path_mixed]

/-- The URLs synthesized by `get_urls` for one base URL:
`base_url.rstrip("/") + "/" + p` for each candidate path. -/
def synth_urls (base_url path_mixed path_lower : String) : List String :=
  (candidate_paths base_url path_mixed path_lower).map
    (fun p => rstripSlash base_url ++ "/" ++ p)

/-- The body of the second loop of `get_urls` for one remote uuid from the
whereis result: look the uuid up in `uuid2remote_url`, skip it when absent
or when its base URL is not HTTP(S), and otherwise synthesize the URLs. -/
def synth_for (cfg : AnnexConfig) (path_mixed path_lower : String)
    (ru : String) : List String :=
  match dictLookup (uuid2remote_url cfg) ru with
  | none => []
  | some base_url =>
      if is_http_url base_url then synth_urls base_url path_mixed path_lower
      else []

/-- `FsspecAdapter.get_urls`, fully enumerated: first every HTTP(S) URL
explicitly recorded in the whereis result, in whereis order; then, for each
remote uuid appearing in the whereis result, the synthesized hash-bucketed
URLs for its configured base URL. -/
def get_urls (whereis_result : List (String × List String))
    (path_mixed path_lower : String) (cfg : AnnexConfig) : List String :=
  (whereis_result.flatMap fun v => v.2.filter is_http_url)
    ++ (whereis_result.map (fun v => v.1)).flatMap (synth_for cfg path_mixed path_lower)

/-- The candidate-trying loop of `FsspecAdapter.open` for a `NO_CONTENT`
file: try `self.fs.open(url, mode)` on each URL in order, swallowing
`FileNotFoundError` and advancing; when the list is exhausted raise
`IOError("Could not find a usable URL for <filepath>")`. -/
def tryUrls (fetch : String → Bool) (filepath : FsPath) :
    List String → Except FsError Handle
  | [] => .error (.noUsableSource filepath)
  | u :: rest =>
      if fetch u then .ok (.remote u)
      else tryUrls fetch filepath rest

/-- The read modes accepted by `FsspecAdapter.open`. -/
def readModes : List String := ["r", "rb", "rt"]

/-- `FsspecAdapter.open`: reject non-read modes, resolve the dataset and
relative path, classify the file state, and either open locally
(`NOT_ANNEXED` and `HAS_CONTENT`) or try the candidate URLs in order
(`NO_CONTENT`). -/
def opn (root : FsPath) (w : World) (filepath : FsPath) (mode : String) :
    Except FsError Handle :=
  if ¬ readModes.contains mode then
    .error .unsupportedMode
  else
    match annexize root w filepath with
    | .error e => .error e
    | .ok (dspath, relpath) =>
        let annex := w.annexOf dspath
        match get_file_state w.fs annex dspath relpath with
        | .error e => .error e
        | .ok (fstate, key?) =>
            if fstate = .NO_CONTENT then
              let key := key?.getD ""
              let path_mixed := annex.examinekeyMixed key
              let path_lower := annex.examinekeyLower key
              tryUrls w.fetch filepath
                (get_urls (annex.whereis relpath) path_mixed path_lower annex.config)
            else
              .ok (.localFile filepath)

/-- `FsspecAdapter.is_under_annex`: classify the file and report whether it
is annexed at all. -/
def is_under_annex_adapter (root : FsPath) (w : World) (filepath : FsPath) :
    Except FsError Bool :=
  match annexize root w filepath with
  | .error e => .error e
  | .ok (dspath, relpath) =>
      match get_file_state w.fs (w.annexOf dspath) dspath relpath with
      | .error e => .error e
      | .ok (fstate, _) => .ok (fstate != FileState.NOT_ANNEXED)

/-! ## Concrete test fixtures

A small concrete world used to exercise the definitions: one dataset at
`r/ds` containing a dangling annex symlink `absent` (key `K`), a resolved
annex symlink `present` (key `P`), a small annexed regular file `small`
(key `SK`, content absent), a large regular file `big`, and a regular path
`ghost` that does not exist on disk. -/

/-- Remote configuration whose single remote has a bare-style base URL
ending in `/.git`. -/
def cfg1 : AnnexConfig :=
  { remotes := [{ name := "origin", annexUuid := some "u1",
                  url := some "http://example.com/repo/.git" }],
    rewriteUrl := id }

/-- Remote configuration whose single remote has a working-tree-style base
URL (no `/.git` suffix). -/
def cfg2 : AnnexConfig :=
  { remotes := [{ name := "origin", annexUuid := some "u1",
                  url := some "http://example.com/repo" }],
    rewriteUrl := id }

/-- Concrete filesystem snapshot for the test dataset `r/ds`. -/
def fsW : FS :=
  { isSymlink := fun p =>
      p == ["r", "ds", "absent"] || p == ["r", "ds", "present"],
    exists_ := fun p =>
      p == ["r", "ds", ".git", "annex", "objects", "P"] ||
      p == ["r", "ds", "small"] || p == ["r", "ds", "big"],
    size := fun p => if p == ["r", "ds", "big"] then 2048 else 10,
    resolveLink := fun p =>
      if p == ["r", "ds", "absent"] then
        ["r", "ds", ".git", "annex", "objects", "K"]
      else
        ["r", "ds", ".git", "annex", "objects", "P"] }

/-- Concrete registry oracle for the test dataset. -/
def annexW : AnnexOracle :=
  { is_under_annex := fun rel => rel == ["small"],
    get_file_key := fun _ => "SK",
    file_has_content := fun _ => false,
    whereis := fun _ => [("u1", [])],
    examinekeyMixed := fun k => "annex/objects/M/M/" ++ k ++ "/" ++ k,
    examinekeyLower := fun k => "annex/objects/L/L/" ++ k ++ "/" ++ k,
    config := cfg2 }

/-- The concrete world: one dataset root `r/ds`, and a fetcher on which only
the mixed-bucketed synthesized URL for key `K` succeeds. -/
def wW : World :=
  { fs := fsW,
    datasetRoot := fun p =>
      if ["r", "ds"].isPrefixOf p then some ["r", "ds"] else none,
    annexOf := fun _ => annexW,
    fetch := fun u => u == "http://example.com/repo/annex/objects/M/M/K/K" }

/-! ## Helper lemmas -/

/-- The candidate-trying loop returns the first URL on which the fetcher
succeeds, and the no-usable-source error when there is none. -/
theorem tryUrls_eq_find (fetch : String → Bool) (filepath : FsPath) :
    ∀ urls : List String,
      tryUrls fetch filepath urls =
        match urls.find? fetch with
        | some u => .ok (.remote u)
        | none => .error (.noUsableSource filepath)
  | [] => rfl
  | u :: rest => by
      rw [tryUrls, List.find?]
      cases h : fetch u with
      | true => simp
      | false => simpa using tryUrls_eq_find fetch filepath rest

/-- A remote uuid contributes no synthesized URLs exactly when it has no
configured base URL or its base URL is not HTTP(S). -/
theorem synth_for_eq_nil_iff (cfg : AnnexConfig) (pm pl ru : String) :
    synth_for cfg pm pl ru = [] ↔
      ∀ base, dictLookup (uuid2remote_url cfg) ru = some base →
        is_http_url base = false := by
  unfold synth_for
  cases h : dictLookup (uuid2remote_url cfg) ru with
  | none => simp
  | some base =>
      cases hb : is_http_url base with
      | true =>
          simp only [hb, if_true]
          constructor
          · intro hnil
            exact absurd hnil (by simp [synth_urls, candidate_paths]; split <;> simp)
          · intro hall
            exact absurd (hall base rfl) (by simp [hb])
      | false => simp [hb]

/-! ## Claim theorems -/

/-- Claim C4: for a path whose entry is a symbolic link, classification
returns `NOT_ANNEXED` with no key when the resolved target does not lie
under the dataset's `.git/annex/objects` store; otherwise the key is the
target's final segment and the state is `HAS_CONTENT` when the target
exists on disk and `NO_CONTENT` otherwise. -/
theorem C4_symlink_classification (fs : FS) (annex : AnnexOracle)
    (ds rel : FsPath) (h : fs.isSymlink (ds ++ rel) = true) :
    ((ds ++ [".git", "annex", "objects"]).isPrefixOf
        (fs.resolveLink (ds ++ rel)) = false →
      get_file_state fs annex ds rel = .ok (.NOT_ANNEXED, none)) ∧
    ((ds ++ [".git", "annex", "objects"]).isPrefixOf
        (fs.resolveLink (ds ++ rel)) = true →
      get_file_state fs annex ds rel =
        .ok ((if fs.exists_ (fs.resolveLink (ds ++ rel)) then
                FileState.HAS_CONTENT else FileState.NO_CONTENT),
             some ((fs.resolveLink (ds ++ rel)).getLastD ""))) := by
  constructor
  · intro hp
    simp [get_file_state, h, hp]
  · intro hp
    cases hex : fs.exists_ (fs.resolveLink (ds ++ rel)) <;>
      simp [get_file_state, h, hp, hex]

/-- Witness for C4: in the concrete world, `absent` is a symlink into the
object store with key `K` whose target is missing, so it classifies as
`NO_CONTENT` with key `K` (Scenario A). -/
theorem C4_symlink_classification_witness :
    get_file_state fsW annexW ["r", "ds"] ["absent"] =
      .ok (.NO_CONTENT, some "K") := by
  have h :=
    (C4_symlink_classification fsW annexW ["r", "ds"] ["absent"]
      (by decide)).2 (by decide)
  exact h.trans (by decide)

/-- Claim C5: for a path whose entry is not a symbolic link, a size below
the 1024-byte threshold triggers a registry query — a tracked entry yields
its key together with `HAS_CONTENT` or `NO_CONTENT` according to local
content presence — and otherwise (size at or above the threshold, or the
registry reporting untracked) classification returns `NOT_ANNEXED` with no
key. -/
theorem C5_regular_classification (fs : FS) (annex : AnnexOracle)
    (ds rel : FsPath)
    (h1 : fs.isSymlink (ds ++ rel) = false)
    (h2 : fs.exists_ (ds ++ rel) = true) :
    (fs.size (ds ++ rel) < 1024 → annex.is_under_annex rel = true →
      get_file_state fs annex ds rel =
        .ok ((if annex.file_has_content rel then
                FileState.HAS_CONTENT else FileState.NO_CONTENT),
             some (annex.get_file_key rel))) ∧
    (1024 ≤ fs.size (ds ++ rel) ∨ annex.is_under_annex rel = false →
      get_file_state fs annex ds rel = .ok (.NOT_ANNEXED, none)) := by
  constructor
  · intro hsz htr
    cases hc : annex.file_has_content rel <;>
      simp [get_file_state, h1, h2, hsz, htr, hc]
  · intro hcase
    rcases hcase with hsz | htr
    · simp [get_file_state, h1, h2, Nat.not_lt.mpr hsz]
    · by_cases hsz : fs.size (ds ++ rel) < 1024 <;>
        simp [get_file_state, h1, h2, htr, hsz]

/-- Witness for C5: in the concrete world, `small` is a small tracked
regular file without local content (so `NO_CONTENT` with key `SK`), and
`big` is a large regular file (so `NOT_ANNEXED`). -/
theorem C5_regular_classification_witness :
    get_file_state fsW annexW ["r", "ds"] ["small"] =
        .ok (.NO_CONTENT, some "SK") ∧
    get_file_state fsW annexW ["r", "ds"] ["big"] = .ok (.NOT_ANNEXED, none) := by
  constructor
  · have h :=
      (C5_regular_classification fsW annexW ["r", "ds"] ["small"]
        (by decide) (by decide)).1 (by decide) (by decide)
    exact h.trans (by decide)
  · exact
      (C5_regular_classification fsW annexW ["r", "ds"] ["big"]
        (by decide) (by decide)).2 (Or.inl (by decide))

/-- Claim C9: whenever classification returns normally, the optional key is
`none` exactly when the state is `NOT_ANNEXED`; both tracked states carry a
key. -/
theorem C9_key_iff_tracked (fs : FS) (annex : AnnexOracle)
    (ds rel : FsPath) (st : FileState) (k : Option String)
    (h : get_file_state fs annex ds rel = .ok (st, k)) :
    k = none ↔ st = .NOT_ANNEXED := by
  unfold get_file_state at h
  by_cases hsym : fs.isSymlink (ds ++ rel) = true <;>
  by_cases hex1 : fs.exists_ (ds ++ rel) = true <;>
  by_cases hsz : fs.size (ds ++ rel) < 1024 <;>
  by_cases htr : annex.is_under_annex rel = true <;>
  by_cases hct : annex.file_has_content rel = true <;>
  by_cases hpre : (ds ++ [".git", "annex", "objects"]).isPrefixOf
      (fs.resolveLink (ds ++ rel)) = true <;>
  by_cases hex2 : fs.exists_ (fs.resolveLink (ds ++ rel)) = true <;>
  simp_all <;>
  (obtain ⟨h1, h2⟩ := h; subst h1; subst h2; simp)

/-- Witness for C9: the small tracked file classifies with a `some` key and
a tracked state. -/
theorem C9_key_iff_tracked_witness :
    (some "SK" = (none : Option String)) ↔
      FileState.NO_CONTENT = FileState.NOT_ANNEXED :=
  C9_key_iff_tracked fsW annexW ["r", "ds"] ["small"] .NO_CONTENT (some "SK")
    (by decide)

/-- Claim C10: a non-symlink path that does not exist on disk makes the
size probe fail, so classification raises a file-not-found error instead of
returning a state, and `open` and `is_under_annex` on that path propagate
the same error. -/
theorem C10_missing_regular_file (root : FsPath) (w : World)
    (filepath ds rel : FsPath) (mode : String)
    (hm : readModes.contains mode = true)
    (ha : annexize root w filepath = .ok (ds, rel))
    (h1 : w.fs.isSymlink (ds ++ rel) = false)
    (h2 : w.fs.exists_ (ds ++ rel) = false) :
    get_file_state w.fs (w.annexOf ds) ds rel = .error .fileNotFound ∧
    opn root w filepath mode = .error .fileNotFound ∧
    is_under_annex_adapter root w filepath = .error .fileNotFound := by
  have hgfs : get_file_state w.fs (w.annexOf ds) ds rel = .error .fileNotFound := by
    simp [get_file_state, h1, h2]
  refine ⟨hgfs, ?_, ?_⟩
  · unfold opn
    rw [if_neg (by simp only [hm]; exact not_not_intro trivial), ha]
    simp [hgfs]
  · unfold is_under_annex_adapter
    rw [ha]
    simp [hgfs]

/-- Witness for C10: the concrete path `ghost` is not a symlink and does
not exist, so classification, `open` and `is_under_annex` all fail with the
file-not-found error. -/
theorem C10_missing_regular_file_witness :
    get_file_state wW.fs (wW.annexOf ["r", "ds"]) ["r", "ds"] ["ghost"] =
        .error .fileNotFound ∧
    opn ["r"] wW ["r", "ds", "ghost"] "rb" = .error .fileNotFound ∧
    is_under_annex_adapter ["r"] wW ["r", "ds", "ghost"] =
        .error .fileNotFound :=
  C10_missing_regular_file ["r"] wW ["r", "ds", "ghost"] ["r", "ds"] ["ghost"]
    "rb" (by decide) (by decide) (by decide) (by decide)

/-- Claim C7: for any mode other than `r`, `rb` and `rt`, `open` fails with
the unsupported-mode error whatever the world is — in particular before the
path is resolved or the registry touched, since the result does not depend
on the filesystem, the dataset locator, the registry or the fetcher. -/
theorem C7_unsupported_mode (root : FsPath) (filepath : FsPath) (mode : String)
    (h : readModes.contains mode = false) :
    ∀ w : World, opn root w filepath mode = .error .unsupportedMode := by
  intro w
  unfold opn
  rw [if_pos (by simp only [h]; decide)]

/-- Witness for C7: opening with mode `w` fails with the unsupported-mode
error in the concrete world. -/
theorem C7_unsupported_mode_witness :
    opn ["r"] wW ["r", "ds", "present"] "w" = .error .unsupportedMode :=
  C7_unsupported_mode ["r"] ["r", "ds", "present"] "w" (by decide) wW

/-- Claim C8: when no enclosing dataset root exists, dataset location fails
with the not-under-DataLad error, and when the discovered root is not under
the configured top-level root it fails with the distinct
not-under-root-dataset error; in both cases `open` fails with the same
error for every registry oracle and every fetcher, i.e. without the
registry being consulted. -/
theorem C8_locate_failures (root : FsPath) (w : World) (path : FsPath)
    (a : FsPath → AnnexOracle) (f : String → Bool)
    (h : w.datasetRoot path = none ∨
      ∃ d, w.datasetRoot path = some d ∧ root.isPrefixOf d = false) :
    get_dataset_path root w path =
        .error (match w.datasetRoot path with
                | none => FsError.notUnderDataLad path
                | some _ => FsError.notUnderRootDataset path) ∧
    opn root { w with annexOf := a, fetch := f } path "rb" =
        .error (match w.datasetRoot path with
                | none => FsError.notUnderDataLad path
                | some _ => FsError.notUnderRootDataset path) ∧
    (∀ q : FsPath, FsError.notUnderDataLad q ≠ FsError.notUnderRootDataset q) := by
  have hd : get_dataset_path root w path =
      .error (match w.datasetRoot path with
              | none => FsError.notUnderDataLad path
              | some _ => FsError.notUnderRootDataset path) := by
    rcases h with hnone | ⟨d, hsome, hpre⟩
    · simp [get_dataset_path, hnone]
    · simp [get_dataset_path, hsome, hpre]
  refine ⟨hd, ?_, ?_⟩
  · have hd' : get_dataset_path root { w with annexOf := a, fetch := f } path =
        .error (match w.datasetRoot path with
                | none => FsError.notUnderDataLad path
                | some _ => FsError.notUnderRootDataset path) := hd
    unfold opn
    rw [if_neg (by exact not_not_intro rfl)]
    unfold annexize
    rw [hd']
  · intro q
    exact fun hq => FsError.noConfusion hq

/-- Witness for C8: the path `q/x` has no enclosing dataset in the concrete
world, so dataset location and `open` both fail with the not-under-DataLad
error, for an arbitrary registry oracle and fetcher. -/
theorem C8_locate_failures_witness :
    get_dataset_path ["r"] wW ["q", "x"] =
        .error (.notUnderDataLad ["q", "x"]) ∧
    opn ["r"] { wW with annexOf := fun _ => annexW, fetch := fun _ => true }
        ["q", "x"] "rb" = .error (.notUnderDataLad ["q", "x"]) ∧
    (∀ q : FsPath, FsError.notUnderDataLad q ≠ FsError.notUnderRootDataset q) := by
  have h := C8_locate_failures ["r"] wW ["q", "x"] (fun _ => annexW)
    (fun _ => true) (Or.inl (by decide))
  exact ⟨h.1.trans (by decide), h.2.1.trans (by decide), h.2.2⟩

/-- Claim C6: a file classified `HAS_CONTENT` or `NOT_ANNEXED` is opened
directly from local disk, with the same result for every fetcher — the URL
candidate generator and the cached remote reader are never consulted. -/
theorem C6_local_open (root : FsPath) (w : World) (filepath ds rel : FsPath)
    (mode : String) (st : FileState) (k : Option String)
    (hm : readModes.contains mode = true)
    (ha : annexize root w filepath = .ok (ds, rel))
    (hs : get_file_state w.fs (w.annexOf ds) ds rel = .ok (st, k))
    (hstate : st ≠ .NO_CONTENT) :
    ∀ f : String → Bool,
      opn root { w with fetch := f } filepath mode =
        .ok (.localFile filepath) := by
  intro f
  have ha' : annexize root { w with fetch := f } filepath = .ok (ds, rel) := ha
  have hs' : get_file_state ({ w with fetch := f }).fs
      (({ w with fetch := f }).annexOf ds) ds rel = .ok (st, k) := hs
  unfold opn
  rw [if_neg (by simp only [hm]; exact not_not_intro trivial), ha']
  simp only [hs']
  simp [hstate]

/-- Witness for C6: the `present` symlink resolves to an existing object
(`HAS_CONTENT`), so `open` returns the local handle even under a fetcher
that fails on every URL. -/
theorem C6_local_open_witness :
    opn ["r"] { wW with fetch := fun _ => false } ["r", "ds", "present"] "rb" =
      .ok (.localFile ["r", "ds", "present"]) :=
  C6_local_open ["r"] wW ["r", "ds", "present"] ["r", "ds"] ["present"] "rb"
    .HAS_CONTENT (some "P") (by decide) (by decide) (by decide)
    (by decide) (fun _ => false)

/-- Claim C3: for a `NO_CONTENT` file, `open` tries the candidate URLs in
sequence order, returns a remote handle on the first URL the fetcher
accepts, swallows every per-candidate not-found failure, and fails with the
no-usable-source error naming the path when every candidate fails or the
sequence is empty. -/
theorem C3_candidate_dispatch (root : FsPath) (w : World)
    (filepath ds rel : FsPath) (mode : String) (k : String)
    (hm : readModes.contains mode = true)
    (ha : annexize root w filepath = .ok (ds, rel))
    (hs : get_file_state w.fs (w.annexOf ds) ds rel = .ok (.NO_CONTENT, some k)) :
    opn root w filepath mode =
      match (get_urls ((w.annexOf ds).whereis rel)
              ((w.annexOf ds).examinekeyMixed k)
              ((w.annexOf ds).examinekeyLower k)
              (w.annexOf ds).config).find? w.fetch with
      | some u => .ok (.remote u)
      | none => .error (.noUsableSource filepath) := by
  unfold opn
  rw [if_neg (by simp only [hm]; exact not_not_intro trivial), ha]
  simp only [hs]
  simp only [if_pos rfl, Option.getD_some]
  exact tryUrls_eq_find w.fetch filepath _

/-- Witness for C3: for the `absent` file the lower-bucketed candidate is
tried first and fails, the failure is swallowed, and the mixed-bucketed
candidate succeeds, so `open` returns its remote handle. -/
theorem C3_candidate_dispatch_witness :
    opn ["r"] wW ["r", "ds", "absent"] "rb" =
      .ok (.remote "http://example.com/repo/annex/objects/M/M/K/K") := by
  have h := C3_candidate_dispatch ["r"] wW ["r", "ds", "absent"] ["r", "ds"]
    ["absent"] "rb" "K" (by decide) (by decide) (by decide)
  exact h.trans (by rfl)

/-- Counterexample to claim C1: for a remote whose base URL ends in the
bare-repository suffix `/.git`, the mixed-bucketed candidate is yielded
before the lower-bucketed one, not after it as the claim states. -/
theorem C1_counterexample :
    get_urls [("u1", [])] "annex/objects/M/M/K/K" "annex/objects/L/L/K/K" cfg1 =
      ["http://example.com/repo/.git/annex/objects/M/M/K/K",
       "http://example.com/repo/.git/annex/objects/L/L/K/K"] ∧
    ¬ List.indexOf "http://example.com/repo/.git/annex/objects/L/L/K/K"
        (get_urls [("u1", [])] "annex/objects/M/M/K/K" "annex/objects/L/L/K/K"
          cfg1) <
      List.indexOf "http://example.com/repo/.git/annex/objects/M/M/K/K"
        (get_urls [("u1", [])] "annex/objects/M/M/K/K" "annex/objects/L/L/K/K"
          cfg1) := by
  constructor
  · rfl
  · decide

/-- Claim C1 (amended): for every remote in the whereis result with a
usable HTTP(S) base URL, the synthesized candidates follow the explicitly
recorded URLs; when the base URL does not end in `/.git` they come in the
order bare-lower, bare-mixed, `.git`-nested-lower, `.git`-nested-mixed
(bare-style before working-tree-style, lower before mixed within each);
when the base URL ends in `/.git` only the two direct candidates are
synthesized, mixed-bucketed before lower-bucketed. -/
theorem C1_candidate_order (urls0 : List String) (ru pm pl : String)
    (cfg : AnnexConfig) (base : String)
    (h1 : dictLookup (uuid2remote_url cfg) ru = some base)
    (h2 : is_http_url base = true) :
    get_urls [(ru, urls0)] pm pl cfg =
      urls0.filter is_http_url ++
        (if strEndsWith (rstripSlash (lowerStr base)) "/.git" then
          [rstripSlash base ++ "/" ++ pm, rstripSlash base ++ "/" ++ pl]
        else
          [rstripSlash base ++ "/" ++ pl, rstripSlash base ++ "/" ++ pm,
           rstripSlash base ++ "/" ++ (".git/" ++ pl),
           rstripSlash base ++ "/" ++ (".git/" ++ pm)]) := by
  unfold get_urls synth_for
  simp only [List.flatMap_cons, List.flatMap_nil, List.map_cons, List.map_nil,
    List.append_nil]
  rw [h1]
  simp only [h2, if_true]
  unfold synth_urls candidate_paths
  split <;> simp

/-- Witness for the amended C1: one whereis remote with one explicit HTTPS
URL and a `/.git`-suffixed base URL yields the explicit URL first and then
the mixed-before-lower direct candidates. -/
theorem C1_candidate_order_witness :
    get_urls [("u1", ["https://example.org/data.bin"])] "PM" "PL" cfg1 =
      ["https://example.org/data.bin",
       "http://example.com/repo/.git/PM",
       "http://example.com/repo/.git/PL"] := by
  have h := C1_candidate_order ["https://example.org/data.bin"] "u1" "PM" "PL"
    cfg1 "http://example.com/repo/.git" (by rfl) (by rfl)
  exact h.trans (by rfl)

/-- Counterexample to claim C2: with an empty whereis result, the candidate
sequence is empty even though a remote is configured with a usable HTTP(S)
base URL — such a remote contributes nothing unless it also appears in the
whereis result. -/
theorem C2_counterexample :
    get_urls [] "PM" "PL" cfg2 = [] ∧
    dictLookup (uuid2remote_url cfg2) "u1" = some "http://example.com/repo" ∧
    is_http_url "http://example.com/repo" = true := by
  refine ⟨rfl, rfl, rfl⟩

/-- Claim C2 (amended): the candidate sequence is empty exactly when no
remote in the whereis result records an explicit HTTP(S) URL and no remote
in the whereis result has a usable HTTP(S) base URL; a remote with a
configured base URL contributes synthesized candidates only when it
reports availability in the whereis result. -/
theorem C2_empty_iff (w : List (String × List String)) (pm pl : String)
    (cfg : AnnexConfig) :
    get_urls w pm pl cfg = [] ↔
      ∀ ru urls, (ru, urls) ∈ w →
        (∀ u ∈ urls, is_http_url u = false) ∧
        (∀ base, dictLookup (uuid2remote_url cfg) ru = some base →
          is_http_url base = false) := by
  unfold get_urls
  rw [List.append_eq_nil]
  rw [List.flatMap_eq_nil_iff, List.flatMap_eq_nil_iff]
  constructor
  · rintro ⟨hexp, hsynth⟩ ru urls hmem
    refine ⟨?_, ?_⟩
    · intro u hu
      have := hexp (ru, urls) hmem
      rw [List.filter_eq_nil_iff] at this
      simpa using this u hu
    · exact (synth_for_eq_nil_iff cfg pm pl ru).mp
        (hsynth ru (List.mem_map.mpr ⟨(ru, urls), hmem, rfl⟩))
  · intro hall
    refine ⟨?_, ?_⟩
    · intro v hv
      rw [List.filter_eq_nil_iff]
      intro u hu
      simp [(hall v.1 v.2 hv).1 u hu]
    · intro ru hru
      obtain ⟨⟨ru', urls⟩, hmem, hru'⟩ := List.mem_map.mp hru
      subst hru'
      exact (synth_for_eq_nil_iff cfg pm pl ru').mpr (hall ru' urls hmem).2

end DataladFuse
